import Mathlib

/-!
Verification development for the damped Gauss-Newton / conjugate-gradient core of
the TensorCodes repository (module `GaussNewton.py`).

The numerical code is shallowly embedded over the exact rationals `ℚ`.  Machine
floats are idealized as exact rationals; the square-root primitive (`numpy.sqrt`)
is passed around as an explicit function parameter `sq : ℚ → ℚ` so that theorems
can state exactly which properties of the primitive they rely on.  The single
place where the Python code can divide a float by zero outside of any guard
(`update_damp`) is modelled with a small IEEE-style value type `FloatVal`
(`x / 0` is `±inf` or `nan`, and comparisons against `nan` are false), mirroring
`numpy.float64` semantics.

Vectors are total functions `ℕ → ℚ` (entries beyond the mathematical length are
junk and never read), matrices are `ℕ → ℕ → ℚ`, and all sums and norms range
over explicit index bounds, mirroring the flat-indexing style of the source.
-/

namespace TensorCodes

/-- Flat vectors: entry `i` of the vector.  Entries beyond the length in use are junk. -/
def Vec : Type := ℕ → ℚ

/-- Matrices: entry `(i, j)`.  Entries beyond the shape in use are junk. -/
def Mat : Type := ℕ → ℕ → ℚ

/-- Sum of `f 0 + f 1 + ... + f (N-1)`, by structural recursion (kernel friendly). -/
def sumTo : ℕ → (ℕ → ℚ) → ℚ
  | 0, _ => 0
  | k + 1, f => sumTo k f + f k

/-- Dot product of the first `N` entries of two flat vectors (`numpy.dot`). -/
def dotN (N : ℕ) (u v : Vec) : ℚ := sumTo N (fun i => u i * v i)

/-- Squared Euclidean norm of the first `N` entries, i.e. `norm(v)**2`. -/
def normSq (N : ℕ) (v : Vec) : ℚ := sumTo N (fun i => v i * v i)

/-- Infinity norm of the first `N` entries, i.e. `norm(v, inf)`. -/
def normInf (N : ℕ) (v : Vec) : ℚ :=
  (List.range N).foldr (fun i acc => max |v i| acc) 0

/-- Squared norm of column `r` of a matrix with `d` rows:
`dot(A[:, r], A[:, r])` in the source. -/
def colSq (d : ℕ) (A : Mat) (r : ℕ) : ℚ := sumTo d (fun i => A i r * A i r)

/-- Maximum of the `R` values `f 0, ..., f (R-1)` (`np.max` on an array of length `R`;
junk for `R = 0`, where numpy would raise). -/
def npMax (R : ℕ) (f : ℕ → ℚ) : ℚ := ((List.range R).map f).foldr max (f 0)

/-- Mean of a list of rationals (`numpy.mean`). -/
def listMean (l : List ℚ) : ℚ := l.sum / (l.length : ℚ)

/-- Mean of the slice `l[start : start + c]` (`mean(arr[a : b])` in the source). -/
def meanSlice (l : List ℚ) (start c : ℕ) : ℚ := listMean ((l.drop start).take c)

/-- A computable stand-in for the float square-root primitive, exact on rationals
whose numerator and denominator are perfect squares (all concrete inputs used in
witnesses and counterexamples below are of this form; elsewhere its value is as
irrelevant to the theorems as the rounding of `numpy.sqrt` is to the code). -/
def ratSqrt (q : ℚ) : ℚ := (Nat.sqrt q.num.toNat : ℚ) / (Nat.sqrt q.den : ℚ)

/-- IEEE-style value of a `numpy.float64` intermediate: a finite rational,
`+inf`, `-inf`, or `nan`. -/
inductive FloatVal where
  | num : ℚ → FloatVal
  | pinf : FloatVal
  | ninf : FloatVal
  | nan : FloatVal
deriving DecidableEq

/-- Division of two finite floats as `numpy.float64` performs it: for a zero
divisor the result is `+inf`, `-inf` or `nan` according to the sign of the
numerator (numpy emits a runtime warning but continues). -/
def fdiv (a b : ℚ) : FloatVal :=
  if b ≠ 0 then .num (a / b)
  else if 0 < a then .pinf
  else if a < 0 then .ninf
  else .nan

/-- The IEEE `<` comparison on `FloatVal`: any comparison involving `nan` is false. -/
def FloatVal.flt : FloatVal → FloatVal → Bool
  | .num a, .num b => decide (a < b)
  | .num _, .pinf => true
  | .ninf, .num _ => true
  | .ninf, .pinf => true
  | _, _ => false

/-- `update_damp` from `GaussNewton.py` (lines 324-336): trust-region style update
of the damping parameter.  The gain-ratio division is unguarded in the source, so
it is modelled with float semantics (`fdiv`). -/
def update_damp (damp old_error error residualnorm : ℚ) : ℚ :=
  let gain := fdiv (2 * (old_error - error)) (old_error - residualnorm)
  if gain.flt (.num (3 / 4)) then damp / 2
  else if (FloatVal.num (9 / 10)).flt gain then 3 / 2 * damp
  else damp

/-- Modelled from the spec: `mlinalg.hadamard` (module `MultilinearAlgebra`, not in
`src/`), the element-wise matrix product (spec glossary: "Hadamard product:
element-wise matrix product"). -/
def hadamard (A B : Mat) : Mat := fun a b => A a b * B a b

/-- Gramian `A^T A` of a matrix with `d` rows: entry `(a, b)` is
`dot(A[:, a], A[:, b])`.  Used by `gramians` in the source. -/
def gram (d : ℕ) (A : Mat) : Mat := fun a b => sumTo d (fun i => A i a * A i b)

/-- `gramians` from `GaussNewton.py` (lines 521-535): the three Gramians
`X^T X`, `Y^T Y`, `Z^T Z` and their pairwise Hadamard products. -/
def gramians (X Y Z : Mat) (m n p : ℕ) : Mat × Mat × Mat × Mat × Mat × Mat :=
  let Gr_X := gram m X
  let Gr_Y := gram n Y
  let Gr_Z := gram p Z
  (Gr_X, Gr_Y, Gr_Z, hadamard Gr_X Gr_Y, hadamard Gr_X Gr_Z, hadamard Gr_Y Gr_Z)

/-- `regularization` from `GaussNewton.py` (lines 642-669): the diagonal Tikhonov
vector `Gamma`.  `sq` is the float square-root primitive (`numpy.sqrt`);
`X_norms[r] = sqrt(dot(X[:, r], X[:, r]))` etc.  The three slices of `Gamma`
(layout `[X block | Y block | Z block]`, each block column-major) are filled with
the constants `gamma_X[r]`, `gamma_Y[r]`, `gamma_Z[r]`. -/
def regularization (sq : ℚ → ℚ) (X Y Z : Mat) (m n p R : ℕ) : Vec :=
  let X_norms := fun r => sq (colSq m X r)
  let Y_norms := fun r => sq (colSq n Y r)
  let Z_norms := fun r => sq (colSq p Z r)
  let max_XY := npMax R (fun r => X_norms r * Y_norms r)
  let max_XZ := npMax R (fun r => X_norms r * Z_norms r)
  let max_YZ := npMax R (fun r => Y_norms r * Z_norms r)
  let max_all := max (max max_XY max_XZ) max_YZ
  fun s =>
    if s < m * R then Y_norms (s / m) * Z_norms (s / m) * max_all
    else if s < R * (m + n) then X_norms ((s - m * R) / n) * Z_norms ((s - m * R) / n) * max_all
    else X_norms ((s - R * (m + n)) / p) * Y_norms ((s - R * (m + n)) / p) * max_all

/-- `precond` from `GaussNewton.py` (lines 672-688): the diagonal preconditioner.
The vector is first filled block-wise with `dot(Y[:,r],Y[:,r])*dot(Z[:,r],Z[:,r])
+ damp*L[...]` (and the two analogous formulas for the `Y` and `Z` blocks), then
inverted element-wise as `M = 1/sqrt(M)`. -/
def precond (sq : ℚ → ℚ) (X Y Z : Mat) (L : Vec) (damp : ℚ) (m n p R : ℕ) : Vec :=
  let Mpre : Vec := fun s =>
    if s < m * R then colSq n Y (s / m) * colSq p Z (s / m) + damp * L s
    else if s < R * (m + n) then
      colSq m X ((s - m * R) / n) * colSq p Z ((s - m * R) / n) + damp * L s
    else
      colSq m X ((s - R * (m + n)) / p) * colSq n Y ((s - R * (m + n)) / p) + damp * L s
  fun s => 1 / sq (Mpre s)

/-- `matvec` from `GaussNewton.py` (lines 538-600): the implicit normal-equations
product `(Df^T Df) v`.  The blocks of `v` are reshaped into `V_X^T` (`R × m`),
`V_Y^T`, `V_Z^T` (`reshape(R, m)` of the column-major block, so entry `(r, i)` is
`v[r*m + i]`), combined with the Gramians via Hadamard products, and re-assembled
into the three output blocks.  The vectorizations `cnv.vect`/`cnv.vec` (module
`Conversion`, not in `src/`) are modelled from the spec as the column-major
flattenings used for the state vector `x`. -/
def matvec (X Y Z Gr_X Gr_Y Gr_Z Gr_XY Gr_XZ Gr_YZ : Mat) (v : Vec) (m n p R : ℕ) : Vec :=
  let V_Xt : Mat := fun r i => v (r * m + i)
  let V_Yt : Mat := fun r j => v (m * R + r * n + j)
  let V_Zt : Mat := fun r k => v (R * (m + n) + r * p + k)
  let V_Xt_dot_X : Mat := fun a b => sumTo m (fun i => V_Xt a i * X i b)
  let V_Yt_dot_Y : Mat := fun a b => sumTo n (fun j => V_Yt a j * Y j b)
  let V_Zt_dot_Z : Mat := fun a b => sumTo p (fun k => V_Zt a k * Z k b)
  let Gr_Z_V_Yt_dot_Y := hadamard Gr_Z V_Yt_dot_Y
  let Gr_Y_V_Zt_dot_Z := hadamard Gr_Y V_Zt_dot_Z
  let Gr_X_V_Zt_dot_Z := hadamard Gr_X V_Zt_dot_Z
  let Gr_Z_V_Xt_dot_X := hadamard Gr_Z V_Xt_dot_X
  let Gr_Y_V_Xt_dot_X := hadamard Gr_Y V_Xt_dot_X
  let Gr_X_V_Yt_dot_Y := hadamard Gr_X V_Yt_dot_Y
  let X_dot_Gr_Z_V_Yt_dot_Y : Mat := fun i b => sumTo R (fun a => X i a * Gr_Z_V_Yt_dot_Y a b)
  let X_dot_Gr_Y_V_Zt_dot_Z : Mat := fun i b => sumTo R (fun a => X i a * Gr_Y_V_Zt_dot_Z a b)
  let Y_dot_Gr_X_V_Zt_dot_Z : Mat := fun j b => sumTo R (fun a => Y j a * Gr_X_V_Zt_dot_Z a b)
  let Y_dot_Gr_Z_V_Xt_dot_X : Mat := fun j b => sumTo R (fun a => Y j a * Gr_Z_V_Xt_dot_X a b)
  let Z_dot_Gr_Y_V_Xt_dot_X : Mat := fun k b => sumTo R (fun a => Z k a * Gr_Y_V_Xt_dot_X a b)
  let Z_dot_Gr_X_V_Yt_dot_Y : Mat := fun k b => sumTo R (fun a => Z k a * Gr_X_V_Yt_dot_Y a b)
  let Gr_YZ_V_Xt : Mat := fun a i => sumTo R (fun b => Gr_YZ a b * V_Xt b i)
  let Gr_XZ_V_Yt : Mat := fun a j => sumTo R (fun b => Gr_XZ a b * V_Yt b j)
  let Gr_XY_V_Zt : Mat := fun a k => sumTo R (fun b => Gr_XY a b * V_Zt b k)
  fun s =>
    if s < m * R then
      Gr_YZ_V_Xt (s / m) (s % m) +
        X_dot_Gr_Z_V_Yt_dot_Y (s % m) (s / m) + X_dot_Gr_Y_V_Zt_dot_Z (s % m) (s / m)
    else if s < R * (m + n) then
      Y_dot_Gr_Z_V_Xt_dot_X ((s - m * R) % n) ((s - m * R) / n) +
        Gr_XZ_V_Yt ((s - m * R) / n) ((s - m * R) % n) +
        Y_dot_Gr_X_V_Zt_dot_Z ((s - m * R) % n) ((s - m * R) / n)
    else
      Z_dot_Gr_Y_V_Xt_dot_X ((s - R * (m + n)) % p) ((s - R * (m + n)) / p) +
        Z_dot_Gr_X_V_Yt_dot_Y ((s - R * (m + n)) % p) ((s - R * (m + n)) / p) +
        Gr_XY_V_Zt ((s - R * (m + n)) / p) ((s - R * (m + n)) % p)

/-- `rmatvec` from `GaussNewton.py` (lines 603-639): the implicit product
`-(Df^T u)`.  Written here with the auxiliary tensors `N1`, `N2`, `NX`, `NY`,
`NZ` of the source inlined as the corresponding double sums (the source's
parallel loops compute exactly these, entry by entry); the function returns the
negation of the assembled block vector, as in the source's `return -result`. -/
def rmatvec (u : Vec) (X Y Z : Mat) (m n p R : ℕ) : Vec :=
  let result : Vec := fun s =>
    if s < R * m then
      sumTo n (fun j => Y j (s / m) * sumTo p (fun k => u (((s % m) * n + j) * p + k) * Z k (s / m)))
    else if s < R * (m + n) then
      sumTo m (fun i =>
        X i ((s - R * m) / n) *
          sumTo p (fun k => u ((i * n + (s - R * m) % n) * p + k) * Z k ((s - R * m) / n)))
    else
      sumTo m (fun i =>
        X i ((s - R * (m + n)) / p) *
          sumTo n (fun j => Y j ((s - R * (m + n)) / p) * u ((i * n + j) * p + (s - R * (m + n)) % p)))
  fun s => -result s

/-- State of the conjugate-gradient loop in `cg` (`GaussNewton.py`, lines 385-422).
`itn` counts executed loop bodies; `broken` records that a `break` fired (the
remaining Python iterations then simply do not happen); `divFlagged` records that
a division whose divisor was exactly `0` has been performed. -/
structure CGState where
  y : Vec
  residual_cg : Vec
  P : Vec
  residualnorm : ℚ
  rn_list : List ℚ
  itn : ℕ
  divFlagged : Bool
  broken : Bool

/-- One iteration of the `cg` loop (`GaussNewton.py`, lines 385-422), verbatim:
`Q = M*P`; `z = M*(matvec(Q) + damp*L*Q)`; guarded `denominator = P.z`;
`alpha`; updates of `y`, `residual_cg`; `beta = residualnorm_new/residualnorm`
(this divisor is the value assigned at the end of the previous iteration, which
the source does not re-guard); then the two stopping criteria. -/
def cgBody (X Y Z Gr_X Gr_Y Gr_Z Gr_XY Gr_XZ Gr_YZ : Mat) (M L : Vec) (damp : ℚ)
    (m n p R : ℕ) (tol : ℚ) (const : ℕ) (s : CGState) : CGState :=
  if s.broken then s else
  let N := R * (m + n + p)
  let Q : Vec := fun i => M i * s.P i
  let z0 := matvec X Y Z Gr_X Gr_Y Gr_Z Gr_XY Gr_XZ Gr_YZ Q m n p R
  let z : Vec := fun i => M i * (z0 i + damp * L i * Q i)
  let denominator0 := dotN N s.P z
  let denominator := if denominator0 = 0 then 1 / 1000000 else denominator0
  let flag1 := s.divFlagged || decide (denominator = 0)
  let alpha := s.residualnorm / denominator
  let y : Vec := fun i => s.y i + alpha * s.P i
  let residual_cg : Vec := fun i => s.residual_cg i - alpha * z i
  let rn_new := normSq N residual_cg
  let flag2 := flag1 || decide (s.residualnorm = 0)
  let beta := rn_new / s.residualnorm
  let rn_list := s.rn_list ++ [rn_new]
  let P : Vec := fun i => residual_cg i + beta * s.P i
  let broken :=
    if rn_new < tol then true
    else if 2 * const ≤ s.itn ∧ s.itn % const = 0 then
      decide (meanSlice rn_list (s.itn - 2 * const) const < meanSlice rn_list (s.itn - const) const)
    else false
  { y := y, residual_cg := residual_cg, P := P, residualnorm := rn_new,
    rn_list := rn_list, itn := s.itn + 1, divFlagged := flag2, broken := broken }

/-- Result of `cg`.  The source returns the 4-tuple
`(M*y, grad, itn+1, residualnorm)`;
`residual_cg` (the final CG residual vector) and `divFlagged` are exposed in
addition for the statements below. -/
structure CGResult where
  y : Vec
  grad : Vec
  iters : ℕ
  residualnorm : ℚ
  residual_cg : Vec
  divFlagged : Bool

/-- `cg` from `GaussNewton.py` (lines 339-424), full state: cap the iteration
count at `min(maxiter, R*(m+n+p))`, build the Gramians, `L = regularization`,
`M = precond`, zero the incoming step buffer (`y = 0*y`), form
`grad = rmatvec(b)`, the preconditioned initial residual `M*grad` and its
guarded squared norm, then run the loop. -/
def cgFull (sq : ℚ → ℚ) (X Y Z : Mat) (y b : Vec) (m n p R : ℕ) (damp : ℚ)
    (maxiter : ℕ) (tol : ℚ) : CGResult :=
  let cap := min maxiter (R * (m + n + p))
  let G := gramians X Y Z m n p
  let L := regularization sq X Y Z m n p R
  let M := precond sq X Y Z L damp m n p R
  let const := 2 + cap / 5
  let y0 : Vec := fun i => 0 * y i
  let grad := rmatvec b X Y Z m n p R
  let residual0 : Vec := fun i => M i * grad i
  let rn0 := normSq (R * (m + n + p)) residual0
  let rn0g := if rn0 = 0 then 1 / 1000000 else rn0
  let sF := (cgBody X Y Z G.1 G.2.1 G.2.2.1 G.2.2.2.1 G.2.2.2.2.1 G.2.2.2.2.2 M L damp
               m n p R tol const)^[cap]
    { y := y0, residual_cg := residual0, P := residual0, residualnorm := rn0g,
      rn_list := [], itn := 0, divFlagged := false, broken := false }
  { y := fun i => M i * sF.y i, grad := grad, iters := sF.itn,
    residualnorm := sF.residualnorm, residual_cg := sF.residual_cg,
    divFlagged := sF.divFlagged }

/-- The 4-tuple actually returned by `cg` in the source:
`M*y, grad, itn+1, residualnorm`. -/
def cg (sq : ℚ → ℚ) (X Y Z : Mat) (y b : Vec) (m n p R : ℕ) (damp : ℚ)
    (maxiter : ℕ) (tol : ℚ) : Vec × Vec × ℕ × ℚ :=
  let r := cgFull sq X Y Z y b m n p R damp maxiter tol
  (r.y, r.grad, r.iters, r.residualnorm)

/-- `compute_step` from `GaussNewton.py` (lines 265-285).  `method_info` is the
4-tuple `(method, cg_maxiter, cg_factor, cg_tol)`.  For `method == "cg"` the
inner budget is randomized: the source draws
`randint(1 + it**0.4, 2 + it**0.9)`; the draw itself is external randomness and
is supplied by the stream `rand` (one natural number per outer iteration), the
surrounding expression `1 + int(cg_factor * draw)` is kept.  For an unknown
method name the source calls `sys.exit`, modelled as `Except.error` with the
message text of the source (quotes dropped). -/
def compute_step (rand : ℕ → ℕ) (sq : ℚ → ℚ) (X Y Z : Mat) (y res : Vec) (m n p R : ℕ)
    (damp : ℚ) (mi : String × ℕ × ℚ × ℚ) (it : ℕ) : Except String (Vec × Vec × ℕ × ℚ) :=
  if mi.1 = "cg" then
    .ok (cg sq X Y Z y (fun i => -res i) m n p R damp
          (1 + (Int.floor (mi.2.2.1 * (rand it : ℚ))).toNat) mi.2.2.2)
  else if mi.1 = "cg_static" then
    .ok (cg sq X Y Z y (fun i => -res i) m n p R damp mi.2.1 mi.2.2.2)
  else
    .error ("Wrong method name. Must be cg, cg_static or als.")

/-- `residual` from `GaussNewton.py` (lines 288-321):
`res[n*p*i + p*j + k] = T[i,j,k] - T_approx[i,j,k]`, written as a function of the
flat index. -/
def residual (T T_approx : ℕ → ℕ → ℕ → ℚ) (n p : ℕ) : Vec :=
  fun s => T (s / (n * p)) (s % (n * p) / p) (s % p) - T_approx (s / (n * p)) (s % (n * p) / p) (s % p)

/-- Modelled from the spec: `cnv.cpd2tens` (module `Conversion`, not in `src/`).
Spec section 3: the factors encode `T_approx = sum_r X[:,r] ⊗ Y[:,r] ⊗ Z[:,r]`. -/
def cpd2tens (X Y Z : Mat) (R : ℕ) : ℕ → ℕ → ℕ → ℚ :=
  fun i j k => sumTo R (fun r => X i r * Y j r * Z k r)

/-- The flattened state vector `x = concatenate((X.flatten('F'), Y.flatten('F'),
Z.flatten('F')))` of `dGN` (line 119): column-major blocks. -/
def flattenF (X Y Z : Mat) (m n p R : ℕ) : Vec :=
  fun s =>
    if s < m * R then X (s % m) (s / m)
    else if s < R * (m + n) then Y ((s - m * R) % n) ((s - m * R) / n)
    else Z ((s - R * (m + n)) % p) ((s - R * (m + n)) / p)

/-- Modelled from the spec: `cnv.x2cpd` (module `Conversion`, not in `src/`).
Spec section 6: a lossless bijection between the flattened vector and the factor
matrices; hence it is the inverse of the column-major flattening `flattenF`. -/
def x2cpd (x : Vec) (m n p R : ℕ) : Mat × Mat × Mat :=
  (fun i r => x (r * m + i),
   fun j r => x (m * R + r * n + j),
   fun k r => x (m * R + n * R + r * p + k))

/-- Squared Frobenius norm of an `m × n × p` tensor, i.e. `norm(T)**2`. -/
def normSqT (m n p : ℕ) (A : ℕ → ℕ → ℕ → ℚ) : ℚ :=
  sumTo m (fun i => sumTo n (fun j => sumTo p (fun k => A i j k * A i j k)))

/-- `mean(np.abs(T))` over an `m × n × p` tensor (used for the initial damping). -/
def meanAbsT (m n p : ℕ) (A : ℕ → ℕ → ℕ → ℚ) : ℚ :=
  sumTo m (fun i => sumTo n (fun j => sumTo p (fun k => |A i j k|))) / ((m * n * p : ℕ) : ℚ)

/-- An initial factor of `dGN`: the source signals "hold this factor fixed"
(bi-factor mode) by wrapping the matrix in a Python list (`type(X) == list`);
this duck-typed signal is modelled as a tagged variant. -/
inductive FactorIn where
  | free : Mat → FactorIn
  | fixed : Mat → FactorIn

/-- The matrix carried by a `FactorIn` (`X = X[0]` unwrapping in the source). -/
def FactorIn.mat : FactorIn → Mat
  | .free A => A
  | .fixed A => A

/-- Whether the factor was wrapped (`type(X) == list` in the source). -/
def FactorIn.isFixed : FactorIn → Bool
  | .free _ => false
  | .fixed _ => true

/-- The fields of the `options` object read by `dGN` and `compute_step`.
`symm`, `display`, `constraints` and `factors_norm` are consumed only by the
external collaborator `cnv.transform` and by printing, and are therefore folded
into the `transform` parameter of `DGNEnv`.  `method`/`cg_maxiter`/`cg_factor`/
`cg_tol` form `options.method_info`; the `bi_*` fields form
`options.bi_method_parameters` used when one factor is held fixed. -/
structure Options where
  init_damp : ℚ
  maxiter : ℕ
  tol : ℚ
  tol_step : ℚ
  tol_improv : ℚ
  tol_grad : ℚ
  method : String
  cg_maxiter : ℕ
  cg_factor : ℚ
  cg_tol : ℚ
  bi_method : String
  bi_cg_maxiter : ℕ
  bi_cg_factor : ℚ
  bi_cg_tol : ℚ

/-- The environment of one `dGN` invocation: the target tensor and its shape,
the float square-root primitive, the external collaborator `cnv.transform`
(spec section 6 treats it as a black box), and the stream of `randint` draws
consumed by `compute_step` (one per outer iteration). -/
structure DGNEnv where
  m : ℕ
  n : ℕ
  p : ℕ
  R : ℕ
  T : ℕ → ℕ → ℕ → ℚ
  sq : ℚ → ℚ
  transform : Mat → Mat → Mat → Mat × Mat × Mat
  rand : ℕ → ℕ

/-- Per-invocation constants of the `dGN` loop, resolved in its preamble
(lines 75-130): the resolved `method_info`, the fixed-factor mode and the saved
originals (`fix_mode`, `X_orig`, ... — junk when the mode does not apply),
`Tsize = norm(T)` and `const = 1 + int(maxiter/10)`. -/
structure DGNCtx where
  env : DGNEnv
  opts : Options
  mi : String × ℕ × ℚ × ℚ
  fix_mode : ℤ
  X_orig : Mat
  Y_orig : Mat
  Z_orig : Mat
  Tsize : ℚ
  const : ℕ

/-- The mutable state of the `dGN` loop.  `best_error` starts at `inf`
(`WithTop.top`); `best` is `none` until the first snapshot is taken (in the
source `best_X` is simply unassigned until then).  `done` records that a `break`
fired; `aborted` records a `sys.exit` from `compute_step` (nothing further
happens in either case).  The diagnostic lists grow by one entry per executed
iteration, which coincides with the source's truncation `errors[0:it+1]` at
exit. -/
structure DGNState where
  X : Mat
  Y : Mat
  Z : Mat
  x : Vec
  y : Vec
  T_approx : ℕ → ℕ → ℕ → ℚ
  damp : ℚ
  error : ℚ
  best_error : WithTop ℚ
  best : Option (Mat × Mat × Mat)
  errors : List ℚ
  step_sizes : List ℚ
  improv : List ℚ
  gradients : List ℚ
  stop : ℕ
  it : ℕ
  done : Bool
  aborted : Bool
  abort_msg : String

/-- The factors produced by one `dGN` iteration (lines 171-182): decode
`x + y`, apply the external `transform`, then restore the externally fixed
factor if any. -/
def dgnFactors (ctx : DGNCtx) (s : DGNState) (yv : Vec) : Mat × Mat × Mat :=
  let x1 : Vec := fun i => s.x i + yv i
  let C := x2cpd x1 ctx.env.m ctx.env.n ctx.env.p ctx.env.R
  let F := ctx.env.transform C.1 C.2.1 C.2.2
  if ctx.fix_mode = 0 then (ctx.X_orig, F.2.1, F.2.2)
  else if ctx.fix_mode = 1 then (F.1, ctx.Y_orig, F.2.2)
  else if ctx.fix_mode = 2 then (F.1, F.2.1, ctx.Z_orig)
  else F

/-- The relative error of one `dGN` iteration (lines 184-186):
`norm(T - T_approx) / Tsize` at the new factors. -/
def dgnError (ctx : DGNCtx) (s : DGNState) (yv : Vec) : ℚ :=
  let F := dgnFactors ctx s yv
  ctx.env.sq (normSqT ctx.env.m ctx.env.n ctx.env.p
      (fun i j k => ctx.env.T i j k - cpd2tens F.1 F.2.1 F.2.2 ctx.env.R i j k))
    / ctx.Tsize

/-- The part of one `dGN` iteration after `compute_step` returned
`(yv, gv, itn, rv)` (lines 171-253): update `x`, the factors and the error;
snapshot the best solution (lines 188-193); `update_damp`; record the
diagnostics; evaluate the stopping conditions (only once `it > 1`) in source
order, setting the stop code and the `done` flag on a `break`. -/
def dgnUpdate (ctx : DGNCtx) (s : DGNState) (yv gv : Vec) (rv : ℚ) : DGNState :=
  let N := ctx.env.R * (ctx.env.m + ctx.env.n + ctx.env.p)
  let x1 : Vec := fun i => s.x i + yv i
  let F := dgnFactors ctx s yv
  let error := dgnError ctx s yv
  let best_error := if (error : WithTop ℚ) < s.best_error then (error : WithTop ℚ) else s.best_error
  let best := if (error : WithTop ℚ) < s.best_error then some F else s.best
  let damp1 := update_damp s.damp s.error error rv
  let step_size := ctx.env.sq (normSq N (fun i => x1 i - s.x i))
  let gnorm := normInf N gv
  let improv_val := if s.it = 0 then error else |s.error - error|
  let errors1 := s.errors ++ [error]
  let stopc : Option ℕ :=
    if 1 < s.it then
      if error < ctx.opts.tol then some 0
      else if step_size < ctx.opts.tol_step then some 1
      else if improv_val < ctx.opts.tol_improv then some 2
      else if gnorm < ctx.opts.tol_grad then some 3
      else if 2 * ctx.const < s.it ∧ s.it % ctx.const = 0 ∧
          meanSlice errors1 (s.it - 2 * ctx.const) ctx.const
              - meanSlice errors1 (s.it - ctx.const) ctx.const ≤ ctx.opts.tol_improv then some 4
      else if max 1 (ctx.Tsize * ctx.Tsize) / ctx.opts.tol < error then some 6
      else none
    else none
  { X := F.1, Y := F.2.1, Z := F.2.2, x := x1, y := yv,
    T_approx := cpd2tens F.1 F.2.1 F.2.2 ctx.env.R,
    damp := damp1, error := error, best_error := best_error, best := best,
    errors := errors1, step_sizes := s.step_sizes ++ [step_size],
    improv := s.improv ++ [improv_val], gradients := s.gradients ++ [gnorm],
    stop := stopc.getD s.stop, it := s.it + 1,
    done := stopc.isSome, aborted := s.aborted, abort_msg := s.abort_msg }

/-- One full `dGN` iteration: refresh the residuals, call `compute_step`, then
either record the abort (`sys.exit` in the source kills the run) or apply
`dgnUpdate`.  The inner-iteration count returned by `compute_step` is used only
for display in the source and is discarded here. -/
def dgnBody (ctx : DGNCtx) (s : DGNState) : DGNState :=
  let res := residual ctx.env.T s.T_approx ctx.env.n ctx.env.p
  match compute_step ctx.env.rand ctx.env.sq s.X s.Y s.Z s.y res
      ctx.env.m ctx.env.n ctx.env.p ctx.env.R s.damp ctx.mi s.it with
  | .error msg => { s with aborted := true, abort_msg := msg }
  | .ok r => dgnUpdate ctx s r.1 r.2.1 r.2.2.2

/-- One step of the `dGN` loop: once a `break` fired or the run aborted, nothing
further happens. -/
def dgnStep (ctx : DGNCtx) (s : DGNState) : DGNState :=
  if s.done || s.aborted then s else dgnBody ctx s

/-- The preamble of `dGN` (lines 75-115): resolve the fixed-factor mode (the
`elif` chain checks `X` first, then `Y`, then `Z`), switch `method_info` to
`options.bi_method_parameters` when some factor is wrapped, save the original of
the fixed factor, and compute `Tsize` and `const`. -/
def dgnCtx (env : DGNEnv) (XIn YIn ZIn : FactorIn) (opts : Options) : DGNCtx :=
  { env := env, opts := opts,
    mi := if XIn.isFixed || YIn.isFixed || ZIn.isFixed then
        (opts.bi_method, opts.bi_cg_maxiter, opts.bi_cg_factor, opts.bi_cg_tol)
      else (opts.method, opts.cg_maxiter, opts.cg_factor, opts.cg_tol),
    fix_mode := if XIn.isFixed then 0 else if YIn.isFixed then 1 else if ZIn.isFixed then 2 else -1,
    X_orig := XIn.mat, Y_orig := YIn.mat, Z_orig := ZIn.mat,
    Tsize := env.sq (normSqT env.m env.n env.p env.T),
    const := 1 + opts.maxiter / 10 }

/-- The initial `dGN` state (lines 108-127): `error = 1`, `best_error = inf`,
`stop = 5`, `damp = init_damp * mean(abs(T))`, flattened `x`, zeroed step
buffer `y`, `T_approx` from the initial factors, empty diagnostics. -/
def dgnInit (env : DGNEnv) (XIn YIn ZIn : FactorIn) (opts : Options) : DGNState :=
  { X := XIn.mat, Y := YIn.mat, Z := ZIn.mat,
    x := flattenF XIn.mat YIn.mat ZIn.mat env.m env.n env.p env.R,
    y := fun _ => 0,
    T_approx := cpd2tens XIn.mat YIn.mat ZIn.mat env.R,
    damp := opts.init_damp * meanAbsT env.m env.n env.p env.T,
    error := 1, best_error := ⊤, best := none,
    errors := [], step_sizes := [], improv := [], gradients := [],
    stop := 5, it := 0, done := false, aborted := false, abort_msg := "" }

/-- The state of the `dGN` loop after `k` steps. -/
def dgnStates (env : DGNEnv) (XIn YIn ZIn : FactorIn) (opts : Options) (k : ℕ) : DGNState :=
  (dgnStep (dgnCtx env XIn YIn ZIn opts))^[k] (dgnInit env XIn YIn ZIn opts)

/-- What `dGN` returns (line 262): the best-known factors (`none` models the
source's unassigned `best_X` when no iteration ran), the truncated diagnostic
lists, the stop code, and the number of executed iterations. -/
structure DGNResult where
  best : Option (Mat × Mat × Mat)
  best_error : WithTop ℚ
  step_sizes : List ℚ
  errors : List ℚ
  improv : List ℚ
  gradients : List ℚ
  stop : ℕ
  iters : ℕ

/-- `dGN` from `GaussNewton.py` (lines 21-262): run `maxiter` loop steps
(steps after a `break` do nothing) and package the result; a `sys.exit` raised
by `compute_step` aborts the whole computation. -/
def dGN (env : DGNEnv) (XIn YIn ZIn : FactorIn) (opts : Options) : Except String DGNResult :=
  let sN := dgnStates env XIn YIn ZIn opts opts.maxiter
  if sN.aborted then .error sN.abort_msg
  else .ok { best := sN.best, best_error := sN.best_error, step_sizes := sN.step_sizes,
             errors := sN.errors, improv := sN.improv, gradients := sN.gradients,
             stop := sN.stop, iters := sN.it }

/-- The inner-method names `compute_step` accepts without aborting. -/
def miValid (mi : String × ℕ × ℚ × ℚ) : Prop := mi.1 = "cg" ∨ mi.1 = "cg_static"

/-- All-ones matrix, used as a concrete factor in witnesses below. -/
def onesM : Mat := fun _ _ => 1

/-- All-zeros matrix, used as a concrete degenerate factor below. -/
def zerosM : Mat := fun _ _ => 0

/-- The `2 × 1` matrix `[[1], [0]]`, used as a concrete factor below. -/
def e1M : Mat := fun i _ => if i = 0 then 1 else 0

/-- Identity constraint map: a concrete instance of the external `cnv.transform`
collaborator (no box constraints, no symmetry, no normalization). -/
def idTransform : Mat → Mat → Mat → Mat × Mat × Mat := fun X Y Z => (X, Y, Z)

/-- A tiny concrete environment (`1 × 1 × 1` zero tensor, rank 1) for witnesses. -/
def envW : DGNEnv :=
  { m := 1, n := 1, p := 1, R := 1, T := fun _ _ _ => 0, sq := ratSqrt,
    transform := idTransform, rand := fun _ => 0 }

/-- Concrete options with `maxiter = 1` and the static inner method, for witnesses. -/
def optsW : Options :=
  { init_damp := 1, maxiter := 1, tol := 0, tol_step := 0, tol_improv := 0, tol_grad := 0,
    method := "cg_static", cg_maxiter := 1, cg_factor := 1, cg_tol := 0,
    bi_method := "cg_static", bi_cg_maxiter := 1, bi_cg_factor := 1, bi_cg_tol := 0 }

/-! ### Helper lemmas -/

theorem sumTo_nonneg (N : ℕ) (f : ℕ → ℚ) (h : ∀ i, i < N → 0 ≤ f i) : 0 ≤ sumTo N f := by
  induction N with
  | zero => exact le_refl 0
  | succ k ih =>
    have h1 : 0 ≤ sumTo k f := ih (fun i hi => h i (Nat.lt_succ_of_lt hi))
    have h2 : 0 ≤ f k := h k (Nat.lt_succ_self k)
    simpa [sumTo] using add_nonneg h1 h2

theorem normSq_nonneg (N : ℕ) (v : Vec) : 0 ≤ normSq N v :=
  sumTo_nonneg N _ (fun i _ => mul_self_nonneg (v i))

theorem colSq_nonneg (d : ℕ) (A : Mat) (r : ℕ) : 0 ≤ colSq d A r :=
  sumTo_nonneg d _ (fun i _ => mul_self_nonneg (A i r))

theorem le_foldr_max (l : List ℚ) (a : ℚ) : a ≤ l.foldr max a := by
  induction l with
  | nil => exact le_refl a
  | cons x t ih => exact le_trans ih (le_max_right x (t.foldr max a))

theorem le_npMax (R : ℕ) (f : ℕ → ℚ) : f 0 ≤ npMax R f := le_foldr_max _ _

theorem ratSqrt_zero : ratSqrt 0 = 0 := by norm_num [ratSqrt]

theorem ratSqrt_one : ratSqrt 1 = 1 := by norm_num [ratSqrt]

theorem ratSqrt_nonneg (q : ℚ) : 0 ≤ ratSqrt q := by
  unfold ratSqrt
  positivity

theorem ratSqrt_pos (q : ℚ) (h : 0 < q) : 0 < ratSqrt q := by
  unfold ratSqrt
  have hnum : 0 < q.num.toNat := by
    have := Rat.num_pos.mpr h
    omega
  have h1 : 0 < Nat.sqrt q.num.toNat := Nat.sqrt_pos.mpr hnum
  have h2 : 0 < Nat.sqrt q.den := Nat.sqrt_pos.mpr q.pos
  have h1q : (0 : ℚ) < (Nat.sqrt q.num.toNat : ℚ) := by exact_mod_cast h1
  have h2q : (0 : ℚ) < (Nat.sqrt q.den : ℚ) := by exact_mod_cast h2
  exact div_pos h1q h2q

/-! ### C2 — `update_damp` -/

/-- C2, counterexample: at `damp = 1, old_error = 1, error = 2, residualnorm = 1`
the inputs satisfy `old_error == residualnorm`, where the claim demands the
result `1.5 * damp`; the code has no such guard — the gain-ratio division by
zero yields `-inf` (numerator `2*(1-2) < 0`), which compares `< 0.75`, so the
damping is halved instead. -/
theorem update_damp_equal_case_fails : update_damp 1 1 2 1 ≠ 3 / 2 * 1 := by
  norm_num [update_damp, fdiv, FloatVal.flt]

/-- C2, amended: when `old_error ≠ residualnorm` the damping update follows the
claimed gain-ratio rule exactly; when `old_error == residualnorm` there is no
guard treating the ratio as `1.0` — the unguarded float division yields `+inf`,
`-inf` or `nan` according to the sign of `old_error - error`, so the result is
`1.5*damp` if the error decreased, `damp/2` if it increased, and `damp`
unchanged if it stayed equal. -/
theorem update_damp_characterization (damp old_error error residualnorm : ℚ) :
    (old_error ≠ residualnorm →
      (2 * (old_error - error) / (old_error - residualnorm) < 3 / 4 →
        update_damp damp old_error error residualnorm = damp / 2) ∧
      (9 / 10 < 2 * (old_error - error) / (old_error - residualnorm) →
        update_damp damp old_error error residualnorm = 3 / 2 * damp) ∧
      (3 / 4 ≤ 2 * (old_error - error) / (old_error - residualnorm) →
        2 * (old_error - error) / (old_error - residualnorm) ≤ 9 / 10 →
        update_damp damp old_error error residualnorm = damp)) ∧
    (old_error = residualnorm →
      (error < old_error → update_damp damp old_error error residualnorm = 3 / 2 * damp) ∧
      (old_error < error → update_damp damp old_error error residualnorm = damp / 2) ∧
      (error = old_error → update_damp damp old_error error residualnorm = damp)) := by
  constructor
  · intro hne
    have hsub : ¬ (old_error - residualnorm = 0) := sub_ne_zero.mpr hne
    refine ⟨fun h => ?_, fun h => ?_, fun h1 h2 => ?_⟩
    · simp [update_damp, fdiv, FloatVal.flt, hsub, h]
    · have hno : ¬ (2 * (old_error - error) / (old_error - residualnorm) < 3 / 4) := by
        push_neg
        linarith
      simp [update_damp, fdiv, FloatVal.flt, hsub, h, hno]
    · have hno : ¬ (2 * (old_error - error) / (old_error - residualnorm) < 3 / 4) := by
        push_neg; exact h1
      have hno2 : ¬ (9 / 10 < 2 * (old_error - error) / (old_error - residualnorm)) := by
        push_neg; exact h2
      simp [update_damp, fdiv, FloatVal.flt, hsub, hno, hno2]
  · intro heq
    have hsub : old_error - residualnorm = 0 := sub_eq_zero.mpr heq
    refine ⟨fun h => ?_, fun h => ?_, fun h => ?_⟩
    · have hpos : 0 < 2 * (old_error - error) := by linarith
      simp [update_damp, fdiv, FloatVal.flt, hsub, hpos]
    · have hneg : 2 * (old_error - error) < 0 := by linarith
      have hnp : ¬ (0 < 2 * (old_error - error)) := by linarith
      simp [update_damp, fdiv, FloatVal.flt, hsub, hneg, hnp]
    · have hz : 2 * (old_error - error) = 0 := by rw [h]; ring
      simp [update_damp, fdiv, FloatVal.flt, hsub, hz]

/-- C2, witness: at `damp = 1, old_error = 2, error = 1, residualnorm = 0` the
gain ratio is `2*1/2 = 1 > 0.9`, so the damping becomes `1.5 * 1`. -/
theorem update_damp_characterization_witness :
    (2 : ℚ) ≠ 0 ∧ update_damp 1 2 1 0 = 3 / 2 * 1 := by
  refine ⟨by norm_num, ?_⟩
  exact ((update_damp_characterization 1 2 1 0).1 (by norm_num)).2.1 (by norm_num)

/-! ### C3 — `compute_step` dispatch -/

/-- C3: `compute_step` aborts (calls `sys.exit`) on the method name `"als"`,
for every input — even though the spec specifies `als` as a supported CG bypass
and the source's own exit message lists `als` among the valid names. -/
theorem compute_step_als_aborts (rand : ℕ → ℕ) (sq : ℚ → ℚ) (X Y Z : Mat) (y res : Vec)
    (m n p R : ℕ) (damp : ℚ) (cgm : ℕ) (cgf cgt : ℚ) (it : ℕ) :
    compute_step rand sq X Y Z y res m n p R damp ("als", cgm, cgf, cgt) it
      = .error ("Wrong method name. Must be cg, cg_static or als.") := by
  unfold compute_step
  dsimp only
  rw [if_neg (by decide), if_neg (by decide)]

/-! ### C8 — CG iteration cap -/

theorem cgBody_itn_succ_le (X Y Z GX GY GZ GXY GXZ GYZ : Mat) (M L : Vec) (damp : ℚ)
    (m n p R : ℕ) (tol : ℚ) (const : ℕ) (s : CGState) :
    (cgBody X Y Z GX GY GZ GXY GXZ GYZ M L damp m n p R tol const s).itn ≤ s.itn + 1 := by
  unfold cgBody
  split
  · exact Nat.le_succ _
  · exact Nat.le_refl _

theorem cgIter_itn_le (X Y Z GX GY GZ GXY GXZ GYZ : Mat) (M L : Vec) (damp : ℚ)
    (m n p R : ℕ) (tol : ℚ) (const : ℕ) :
    ∀ (k : ℕ) (s : CGState),
      ((cgBody X Y Z GX GY GZ GXY GXZ GYZ M L damp m n p R tol const)^[k] s).itn ≤ s.itn + k := by
  intro k
  induction k with
  | zero => intro s; simp
  | succ k ih =>
    intro s
    rw [Function.iterate_succ_apply]
    have h1 := ih (cgBody X Y Z GX GY GZ GXY GXZ GYZ M L damp m n p R tol const s)
    have h2 := cgBody_itn_succ_le X Y Z GX GY GZ GXY GXZ GYZ M L damp m n p R tol const s
    omega

/-- C8: the `cg` loop executes at most `min(maxiter, R*(m+n+p))` iterations —
never more than one matvec per degree of freedom of the flattened factor state —
for every input (`iters` counts executed loop bodies, the source's `itn+1`). -/
theorem cg_iterations_le_cap (sq : ℚ → ℚ) (X Y Z : Mat) (y b : Vec) (m n p R : ℕ)
    (damp : ℚ) (maxiter : ℕ) (tol : ℚ) :
    (cgFull sq X Y Z y b m n p R damp maxiter tol).iters ≤ min maxiter (R * (m + n + p)) := by
  unfold cgFull
  dsimp only
  refine le_trans (cgIter_itn_le _ _ _ _ _ _ _ _ _ _ _ _ _ _ _ _ _ _ _ _) ?_
  simp

/-! ### C10 — the incoming step buffer is irrelevant -/

/-- C10: the outputs of `cg` do not depend on the contents of the incoming step
buffer `y`, which is zeroed (`y = 0*y`) on entry before any use. -/
theorem cg_ignores_incoming_y (sq : ℚ → ℚ) (X Y Z : Mat) (y1 y2 b : Vec) (m n p R : ℕ)
    (damp : ℚ) (maxiter : ℕ) (tol : ℚ) :
    cg sq X Y Z y1 b m n p R damp maxiter tol = cg sq X Y Z y2 b m n p R damp maxiter tol := by
  have h : (fun i => 0 * y1 i : Vec) = fun i => 0 * y2 i := by
    funext i
    rw [zero_mul, zero_mul]
  unfold cg cgFull
  rw [h]

/-! ### C4 — division guards in the CG loop -/

theorem cgBody_noflag (X Y Z GX GY GZ GXY GXZ GYZ : Mat) (M L : Vec) (damp : ℚ)
    (m n p R : ℕ) (tol : ℚ) (const : ℕ) (htol : 0 < tol) (s : CGState)
    (h1 : s.divFlagged = false) (h2 : s.broken = true ∨ 0 < s.residualnorm) :
    (cgBody X Y Z GX GY GZ GXY GXZ GYZ M L damp m n p R tol const s).divFlagged = false ∧
      ((cgBody X Y Z GX GY GZ GXY GXZ GYZ M L damp m n p R tol const s).broken = true ∨
        0 < (cgBody X Y Z GX GY GZ GXY GXZ GYZ M L damp m n p R tol const s).residualnorm) := by
  unfold cgBody
  split
  · exact ⟨h1, h2⟩
  · rename_i hbr
    have hrn : 0 < s.residualnorm := by
      rcases h2 with h | h
      · exact absurd h hbr
      · exact h
    dsimp only
    constructor
    · rw [h1]
      simp only [Bool.false_or, Bool.or_eq_false_iff, decide_eq_false_iff_not]
      constructor
      · split
        · norm_num
        · assumption
      · exact ne_of_gt hrn
    · split <;> split <;> rename_i _ hge
      · left; rfl
      · right; exact lt_of_lt_of_le htol (not_lt.mp hge)
      · left; rfl
      · right; exact lt_of_lt_of_le htol (not_lt.mp hge)

theorem cgIter_noflag (X Y Z GX GY GZ GXY GXZ GYZ : Mat) (M L : Vec) (damp : ℚ)
    (m n p R : ℕ) (tol : ℚ) (const : ℕ) (htol : 0 < tol) :
    ∀ (k : ℕ) (s : CGState), s.divFlagged = false → (s.broken = true ∨ 0 < s.residualnorm) →
      ((cgBody X Y Z GX GY GZ GXY GXZ GYZ M L damp m n p R tol const)^[k] s).divFlagged
        = false := by
  intro k
  induction k with
  | zero => intro s h1 _; simpa using h1
  | succ k ih =>
    intro s h1 h2
    rw [Function.iterate_succ_apply]
    have h := cgBody_noflag X Y Z GX GY GZ GXY GXZ GYZ M L damp m n p R tol const htol s h1 h2
    exact ih _ h.1 h.2

/-- C4, counterexample: with zero right-hand side, `cg_tol = 0` and inner budget
2 on a `1×1×1` rank-1 instance with all-ones factors, the residual norm
reassigned at the end of the first loop iteration is exactly `0` and, since
`0 < tol` fails, it is used unguarded as the divisor of `beta` in the second
iteration: a `0/0` division (`nan` in numpy) occurs, refuting the claim that
every zero residual norm is replaced by `1e-6` before use, for all inputs. -/
theorem cg_divzero_occurs :
    (cgFull ratSqrt onesM onesM onesM (fun _ => 0) (fun _ => 0) 1 1 1 1 0 2 0).divFlagged
      = true := by
  norm_num [cgFull, cgBody, gramians, gram, regularization, precond, matvec, rmatvec,
    hadamard, colSq, sumTo, dotN, normSq, npMax, meanSlice, listMean, ratSqrt_one,
    onesM, List.range_succ, Function.iterate_succ_apply, Function.iterate_zero_apply]

/-- C4, amended: every denominator in the CG loop is guarded, and the initial
residual norm is guarded; the residual norm reassigned at the end of an
iteration is not re-guarded, but whenever the configured tolerance is positive
the loop breaks before a zero residual norm can be used as a divisor, so no
division by zero (hence no NaN/Inf from these divisions) occurs. -/
theorem cg_no_divzero_of_pos_tol (sq : ℚ → ℚ) (X Y Z : Mat) (y b : Vec) (m n p R : ℕ)
    (damp : ℚ) (maxiter : ℕ) (tol : ℚ) (htol : 0 < tol) :
    (cgFull sq X Y Z y b m n p R damp maxiter tol).divFlagged = false := by
  unfold cgFull
  dsimp only
  apply cgIter_noflag _ _ _ _ _ _ _ _ _ _ _ _ _ _ _ _ _ _ htol
  · rfl
  · right
    dsimp only
    split
    · norm_num
    · rename_i hne
      exact lt_of_le_of_ne (normSq_nonneg _ _) (Ne.symm hne)

/-- C4, witness for the amended theorem: the same degenerate instance as the
counterexample, but with the positive tolerance `1`: no division by zero. -/
theorem cg_no_divzero_witness :
    (0 : ℚ) < 1 ∧
      (cgFull ratSqrt onesM onesM onesM (fun _ => 0) (fun _ => 0) 1 1 1 1 0 2 1).divFlagged
        = false :=
  ⟨by norm_num,
    cg_no_divzero_of_pos_tol ratSqrt onesM onesM onesM (fun _ => 0) (fun _ => 0) 1 1 1 1 0 2 1
      (by norm_num)⟩

/-! ### C6 — the fourth return value of `cg` -/

theorem cgBody_preserves_resnorm_eq (X Y Z GX GY GZ GXY GXZ GYZ : Mat) (M L : Vec)
    (damp : ℚ) (m n p R : ℕ) (tol : ℚ) (const : ℕ) (s : CGState)
    (h : s.residualnorm = normSq (R * (m + n + p)) s.residual_cg) :
    (cgBody X Y Z GX GY GZ GXY GXZ GYZ M L damp m n p R tol const s).residualnorm
      = normSq (R * (m + n + p))
          (cgBody X Y Z GX GY GZ GXY GXZ GYZ M L damp m n p R tol const s).residual_cg := by
  unfold cgBody
  split
  · exact h
  · rfl

theorem cgBody_establishes_resnorm_eq (X Y Z GX GY GZ GXY GXZ GYZ : Mat) (M L : Vec)
    (damp : ℚ) (m n p R : ℕ) (tol : ℚ) (const : ℕ) (s : CGState) (hb : s.broken = false) :
    (cgBody X Y Z GX GY GZ GXY GXZ GYZ M L damp m n p R tol const s).residualnorm
      = normSq (R * (m + n + p))
          (cgBody X Y Z GX GY GZ GXY GXZ GYZ M L damp m n p R tol const s).residual_cg := by
  have hnb : ¬ (s.broken = true) := by simp [hb]
  unfold cgBody
  rw [if_neg hnb]

theorem cgIter_resnorm_eq (X Y Z GX GY GZ GXY GXZ GYZ : Mat) (M L : Vec) (damp : ℚ)
    (m n p R : ℕ) (tol : ℚ) (const : ℕ) :
    ∀ (k : ℕ) (s : CGState), s.residualnorm = normSq (R * (m + n + p)) s.residual_cg →
      ((cgBody X Y Z GX GY GZ GXY GXZ GYZ M L damp m n p R tol const)^[k] s).residualnorm
        = normSq (R * (m + n + p))
            ((cgBody X Y Z GX GY GZ GXY GXZ GYZ M L damp m n p R tol const)^[k] s).residual_cg := by
  intro k
  induction k with
  | zero => intro s h; simpa using h
  | succ k ih =>
    intro s h
    rw [Function.iterate_succ_apply]
    exact ih _ (cgBody_preserves_resnorm_eq X Y Z GX GY GZ GXY GXZ GYZ M L damp m n p R tol
      const s h)

/-- C6, counterexample: on a concrete run (factors `[[1],[0]]`, `[[1]]`, `[[1]]`,
right-hand side `-1`, one CG iteration) the fourth returned value is `12/25`,
which is the squared norm of the final CG residual; its square therefore differs
from that squared norm, so the returned value is not the residual norm (indeed
the residual norm here, `sqrt(12)/5`, is irrational). -/
theorem cg_residualnorm_not_the_norm :
    (cgFull ratSqrt e1M onesM onesM (fun _ => 0) (fun _ => -1) 2 1 1 1 0 1 0).residualnorm *
        (cgFull ratSqrt e1M onesM onesM (fun _ => 0) (fun _ => -1) 2 1 1 1 0 1 0).residualnorm
      ≠ normSq 4
          (cgFull ratSqrt e1M onesM onesM (fun _ => 0) (fun _ => -1) 2 1 1 1 0 1 0).residual_cg := by
  have h1 : (cgFull ratSqrt e1M onesM onesM (fun _ => 0) (fun _ => -1) 2 1 1 1 0 1 0).residualnorm
      = 12 / 25 := by
    norm_num [cgFull, cgBody, gramians, gram, regularization, precond, matvec, rmatvec,
      hadamard, colSq, sumTo, dotN, normSq, npMax, meanSlice, listMean, ratSqrt_one,
      e1M, onesM, List.range_succ, Function.iterate_succ_apply, Function.iterate_zero_apply]
  have h2 : normSq 4
      (cgFull ratSqrt e1M onesM onesM (fun _ => 0) (fun _ => -1) 2 1 1 1 0 1 0).residual_cg
      = 12 / 25 := by
    norm_num [cgFull, cgBody, gramians, gram, regularization, precond, matvec, rmatvec,
      hadamard, colSq, sumTo, dotN, normSq, npMax, meanSlice, listMean, ratSqrt_one,
      e1M, onesM, List.range_succ, Function.iterate_succ_apply, Function.iterate_zero_apply]
  rw [h1, h2]
  norm_num

/-- C6, amended: whenever the iteration cap `min(maxiter, R*(m+n+p))` is at
least 1 (so that the loop body executes at least once; with a zero cap the
Python function crashes on the unbound loop variable), the fourth value
returned by `cg` is the squared Euclidean norm of the final CG residual
vector. -/
theorem cg_residualnorm_is_squared_norm (sq : ℚ → ℚ) (X Y Z : Mat) (y b : Vec)
    (m n p R : ℕ) (damp : ℚ) (maxiter : ℕ) (tol : ℚ)
    (hcap : 1 ≤ min maxiter (R * (m + n + p))) :
    (cgFull sq X Y Z y b m n p R damp maxiter tol).residualnorm
      = normSq (R * (m + n + p))
          (cgFull sq X Y Z y b m n p R damp maxiter tol).residual_cg := by
  obtain ⟨c, hc⟩ : ∃ c, min maxiter (R * (m + n + p)) = c + 1 :=
    ⟨min maxiter (R * (m + n + p)) - 1, by omega⟩
  unfold cgFull
  dsimp only
  rw [hc, Function.iterate_succ_apply]
  exact cgIter_resnorm_eq _ _ _ _ _ _ _ _ _ _ _ _ _ _ _ _ _ _ c _
    (cgBody_establishes_resnorm_eq _ _ _ _ _ _ _ _ _ _ _ _ _ _ _ _ _ _ _ rfl)

/-- C6, witness for the amended theorem: the same concrete run as the
counterexample; the returned value equals the squared norm of the final
residual. -/
theorem cg_residualnorm_sq_witness :
    1 ≤ min 1 (1 * (2 + 1 + 1)) ∧
      (cgFull ratSqrt e1M onesM onesM (fun _ => 0) (fun _ => -1) 2 1 1 1 0 1 0).residualnorm
        = normSq (1 * (2 + 1 + 1))
            (cgFull ratSqrt e1M onesM onesM (fun _ => 0) (fun _ => -1) 2 1 1 1 0 1 0).residual_cg :=
  ⟨by norm_num,
    cg_residualnorm_is_squared_norm ratSqrt e1M onesM onesM (fun _ => 0) (fun _ => -1) 2 1 1 1 0 1 0
      (by norm_num)⟩

/-! ### C5 — positivity of the regularization and preconditioner vectors -/

theorem regularization_nonneg (sq : ℚ → ℚ) (X Y Z : Mat) (m n p R : ℕ)
    (hsq_nn : ∀ q, 0 ≤ q → 0 ≤ sq q) :
    ∀ s, 0 ≤ regularization sq X Y Z m n p R s := by
  intro s
  have hXn : ∀ r, 0 ≤ sq (colSq m X r) := fun r => hsq_nn _ (colSq_nonneg _ _ _)
  have hYn : ∀ r, 0 ≤ sq (colSq n Y r) := fun r => hsq_nn _ (colSq_nonneg _ _ _)
  have hZn : ∀ r, 0 ≤ sq (colSq p Z r) := fun r => hsq_nn _ (colSq_nonneg _ _ _)
  have hmax : 0 ≤ max (max (npMax R (fun r => sq (colSq m X r) * sq (colSq n Y r)))
      (npMax R (fun r => sq (colSq m X r) * sq (colSq p Z r))))
      (npMax R (fun r => sq (colSq n Y r) * sq (colSq p Z r))) := by
    have h0 : 0 ≤ npMax R (fun r => sq (colSq m X r) * sq (colSq n Y r)) :=
      le_trans (mul_nonneg (hXn 0) (hYn 0)) (le_npMax _ _)
    exact le_trans h0 (le_trans (le_max_left _ _) (le_max_left _ _))
  unfold regularization
  dsimp only
  split_ifs
  · exact mul_nonneg (mul_nonneg (hYn _) (hZn _)) hmax
  · exact mul_nonneg (mul_nonneg (hXn _) (hZn _)) hmax
  · exact mul_nonneg (mul_nonneg (hXn _) (hYn _)) hmax

/-- C5, counterexample: for the all-zero `1 × 1` factor triple (a degenerate
all-zero column), the first entry of the Tikhonov vector `Gamma` is `0`, not
strictly positive: the max-based scaling multiplies the vanishing norm product
and cannot keep the entry from vanishing. -/
theorem regularization_zero_column_not_pos :
    ¬ (0 < regularization ratSqrt zerosM zerosM zerosM 1 1 1 1 0) := by
  norm_num [regularization, colSq, sumTo, npMax, ratSqrt_zero, zerosM, List.range_succ]

/-- C5, amended: when every column of each factor is nonzero (positive squared
column norms), the damping is nonnegative, and the square-root primitive is
positive on positive inputs, every entry of `Gamma` and every entry of the
preconditioner `M` is strictly positive. -/
theorem regularization_precond_pos (sq : ℚ → ℚ) (X Y Z : Mat) (m n p R : ℕ) (damp : ℚ)
    (hm : 0 < m) (hn : 0 < n) (hp : 0 < p) (hR : 0 < R) (hd : 0 ≤ damp)
    (hsq_pos : ∀ q, 0 < q → 0 < sq q)
    (hX : ∀ r, r < R → 0 < colSq m X r) (hY : ∀ r, r < R → 0 < colSq n Y r)
    (hZ : ∀ r, r < R → 0 < colSq p Z r) :
    ∀ s, s < R * (m + n + p) →
      0 < regularization sq X Y Z m n p R s ∧
        0 < precond sq X Y Z (regularization sq X Y Z m n p R) damp m n p R s := by
  have hXp : ∀ r, r < R → 0 < sq (colSq m X r) := fun r hr => hsq_pos _ (hX r hr)
  have hYp : ∀ r, r < R → 0 < sq (colSq n Y r) := fun r hr => hsq_pos _ (hY r hr)
  have hZp : ∀ r, r < R → 0 < sq (colSq p Z r) := fun r hr => hsq_pos _ (hZ r hr)
  have hmax : 0 < max (max (npMax R (fun r => sq (colSq m X r) * sq (colSq n Y r)))
      (npMax R (fun r => sq (colSq m X r) * sq (colSq p Z r))))
      (npMax R (fun r => sq (colSq n Y r) * sq (colSq p Z r))) := by
    have h0 : 0 < npMax R (fun r => sq (colSq m X r) * sq (colSq n Y r)) :=
      lt_of_lt_of_le (mul_pos (hXp 0 hR) (hYp 0 hR)) (le_npMax _ _)
    exact lt_of_lt_of_le h0 (le_trans (le_max_left _ _) (le_max_left _ _))
  have hsplit : R * (m + n + p) = R * (m + n) + R * p := by ring
  have hsplit2 : R * (m + n) = R * m + R * n := by ring
  have hcomm : m * R = R * m := Nat.mul_comm m R
  intro s hs
  have hGamma : 0 < regularization sq X Y Z m n p R s := by
    unfold regularization
    dsimp only
    split_ifs with h1 h2
    · have hr : s / m < R := (Nat.div_lt_iff_lt_mul hm).mpr (by omega)
      exact mul_pos (mul_pos (hYp _ hr) (hZp _ hr)) hmax
    · have hr : (s - m * R) / n < R := (Nat.div_lt_iff_lt_mul hn).mpr (by omega)
      exact mul_pos (mul_pos (hXp _ hr) (hZp _ hr)) hmax
    · have hr : (s - R * (m + n)) / p < R := (Nat.div_lt_iff_lt_mul hp).mpr (by omega)
      exact mul_pos (mul_pos (hXp _ hr) (hYp _ hr)) hmax
  refine ⟨hGamma, ?_⟩
  have hL : 0 ≤ regularization sq X Y Z m n p R s := le_of_lt hGamma
  unfold precond
  dsimp only
  have hMpre : 0 < (if s < m * R then
        colSq n Y (s / m) * colSq p Z (s / m) + damp * regularization sq X Y Z m n p R s
      else if s < R * (m + n) then
        colSq m X ((s - m * R) / n) * colSq p Z ((s - m * R) / n)
          + damp * regularization sq X Y Z m n p R s
      else
        colSq m X ((s - R * (m + n)) / p) * colSq n Y ((s - R * (m + n)) / p)
          + damp * regularization sq X Y Z m n p R s) := by
    split_ifs with h1 h2
    · have hr : s / m < R := (Nat.div_lt_iff_lt_mul hm).mpr (by omega)
      exact add_pos_of_pos_of_nonneg (mul_pos (hY _ hr) (hZ _ hr)) (mul_nonneg hd hL)
    · have hr : (s - m * R) / n < R := (Nat.div_lt_iff_lt_mul hn).mpr (by omega)
      exact add_pos_of_pos_of_nonneg (mul_pos (hX _ hr) (hZ _ hr)) (mul_nonneg hd hL)
    · have hr : (s - R * (m + n)) / p < R := (Nat.div_lt_iff_lt_mul hp).mpr (by omega)
      exact add_pos_of_pos_of_nonneg (mul_pos (hX _ hr) (hY _ hr)) (mul_nonneg hd hL)
  exact one_div_pos.mpr (hsq_pos _ hMpre)

/-- C5, witness for the amended theorem: all-ones `1 × 1` factors, `damp = 0`,
entry `0`: both vectors are strictly positive there. -/
theorem regularization_precond_pos_witness :
    (0 : ℕ) < 1 ∧
      (0 < regularization ratSqrt onesM onesM onesM 1 1 1 1 0 ∧
        0 < precond ratSqrt onesM onesM onesM (regularization ratSqrt onesM onesM onesM 1 1 1 1)
              0 1 1 1 1 0) := by
  refine ⟨Nat.one_pos, ?_⟩
  refine regularization_precond_pos ratSqrt onesM onesM onesM 1 1 1 1 0 Nat.one_pos Nat.one_pos
    Nat.one_pos Nat.one_pos le_rfl (fun q h => ratSqrt_pos q h)
    ?_ ?_ ?_ 0 (by norm_num)
  all_goals
    intro r hr
    have hr0 : r = 0 := by omega
    subst hr0
    norm_num [colSq, sumTo, onesM]

/-! ### Lemmas about one `dGN` step -/

theorem dgnStep_skip (ctx : DGNCtx) (s : DGNState) (h : s.done = true ∨ s.aborted = true) :
    dgnStep ctx s = s := by
  unfold dgnStep
  rcases h with h | h <;> simp [h]

theorem dgnStep_active (ctx : DGNCtx) (s : DGNState) (h1 : s.done = false)
    (h2 : s.aborted = false) : dgnStep ctx s = dgnBody ctx s := by
  unfold dgnStep
  simp [h1, h2]

theorem compute_step_ok (rand : ℕ → ℕ) (sq : ℚ → ℚ) (X Y Z : Mat) (y res : Vec)
    (m n p R : ℕ) (damp : ℚ) (mi : String × ℕ × ℚ × ℚ) (it : ℕ) (h : miValid mi) :
    ∃ r, compute_step rand sq X Y Z y res m n p R damp mi it = .ok r := by
  unfold compute_step
  rcases h with h | h
  · rw [if_pos h]
    exact ⟨_, rfl⟩
  · have h1 : ¬ (mi.1 = "cg") := by rw [h]; decide
    rw [if_neg h1, if_pos h]
    exact ⟨_, rfl⟩

theorem dgnBody_eq_update (ctx : DGNCtx) (s : DGNState) (h : miValid ctx.mi) :
    ∃ yv gv rv, dgnBody ctx s = dgnUpdate ctx s yv gv rv := by
  obtain ⟨r, hr⟩ := compute_step_ok ctx.env.rand ctx.env.sq s.X s.Y s.Z s.y
    (residual ctx.env.T s.T_approx ctx.env.n ctx.env.p) ctx.env.m ctx.env.n ctx.env.p ctx.env.R
    s.damp ctx.mi s.it h
  refine ⟨r.1, r.2.1, r.2.2.2, ?_⟩
  unfold dgnBody
  dsimp only
  rw [hr]

theorem dgnUpdate_error (ctx : DGNCtx) (s : DGNState) (yv gv : Vec) (rv : ℚ) :
    (dgnUpdate ctx s yv gv rv).error = dgnError ctx s yv := rfl

theorem dgnUpdate_best_error (ctx : DGNCtx) (s : DGNState) (yv gv : Vec) (rv : ℚ) :
    (dgnUpdate ctx s yv gv rv).best_error
      = if (dgnError ctx s yv : WithTop ℚ) < s.best_error then (dgnError ctx s yv : WithTop ℚ)
        else s.best_error := rfl

theorem dgnUpdate_best (ctx : DGNCtx) (s : DGNState) (yv gv : Vec) (rv : ℚ) :
    (dgnUpdate ctx s yv gv rv).best
      = if (dgnError ctx s yv : WithTop ℚ) < s.best_error then some (dgnFactors ctx s yv)
        else s.best := rfl

theorem dgnUpdate_it (ctx : DGNCtx) (s : DGNState) (yv gv : Vec) (rv : ℚ) :
    (dgnUpdate ctx s yv gv rv).it = s.it + 1 := rfl

theorem dgnUpdate_aborted (ctx : DGNCtx) (s : DGNState) (yv gv : Vec) (rv : ℚ) :
    (dgnUpdate ctx s yv gv rv).aborted = s.aborted := rfl

theorem dgnUpdate_errors (ctx : DGNCtx) (s : DGNState) (yv gv : Vec) (rv : ℚ) :
    (dgnUpdate ctx s yv gv rv).errors = s.errors ++ [dgnError ctx s yv] := rfl

theorem dgnUpdate_lengths (ctx : DGNCtx) (s : DGNState) (yv gv : Vec) (rv : ℚ) :
    (dgnUpdate ctx s yv gv rv).errors.length = s.errors.length + 1 ∧
    (dgnUpdate ctx s yv gv rv).step_sizes.length = s.step_sizes.length + 1 ∧
    (dgnUpdate ctx s yv gv rv).improv.length = s.improv.length + 1 ∧
    (dgnUpdate ctx s yv gv rv).gradients.length = s.gradients.length + 1 := by
  refine ⟨?_, ?_, ?_, ?_⟩ <;> simp [dgnUpdate]

theorem dgnUpdate_stop_of_first (ctx : DGNCtx) (s : DGNState) (yv gv : Vec) (rv : ℚ)
    (h : s.it = 0) :
    (dgnUpdate ctx s yv gv rv).stop = s.stop ∧ (dgnUpdate ctx s yv gv rv).done = false := by
  unfold dgnUpdate
  dsimp only
  rw [h]
  norm_num

theorem dgnStates_succ (env : DGNEnv) (XIn YIn ZIn : FactorIn) (opts : Options) (k : ℕ) :
    dgnStates env XIn YIn ZIn opts (k + 1)
      = dgnStep (dgnCtx env XIn YIn ZIn opts) (dgnStates env XIn YIn ZIn opts k) := by
  unfold dgnStates
  rw [Function.iterate_succ_apply']

theorem dgnStates_not_aborted (env : DGNEnv) (XIn YIn ZIn : FactorIn) (opts : Options)
    (hv : miValid (dgnCtx env XIn YIn ZIn opts).mi) :
    ∀ k, (dgnStates env XIn YIn ZIn opts k).aborted = false := by
  intro k
  induction k with
  | zero => rfl
  | succ k ih =>
    rw [dgnStates_succ]
    by_cases hd : (dgnStates env XIn YIn ZIn opts k).done = true
    · rw [dgnStep_skip _ _ (Or.inl hd)]
      exact ih
    · rw [dgnStep_active _ _ (by simpa using hd) ih]
      obtain ⟨yv, gv, rv, hb⟩ := dgnBody_eq_update _ _ hv
      rw [hb, dgnUpdate_aborted]
      exact ih

theorem dGN_eq_ok (env : DGNEnv) (XIn YIn ZIn : FactorIn) (opts : Options)
    (hv : miValid (dgnCtx env XIn YIn ZIn opts).mi) :
    dGN env XIn YIn ZIn opts = .ok
      { best := (dgnStates env XIn YIn ZIn opts opts.maxiter).best,
        best_error := (dgnStates env XIn YIn ZIn opts opts.maxiter).best_error,
        step_sizes := (dgnStates env XIn YIn ZIn opts opts.maxiter).step_sizes,
        errors := (dgnStates env XIn YIn ZIn opts opts.maxiter).errors,
        improv := (dgnStates env XIn YIn ZIn opts opts.maxiter).improv,
        gradients := (dgnStates env XIn YIn ZIn opts opts.maxiter).gradients,
        stop := (dgnStates env XIn YIn ZIn opts opts.maxiter).stop,
        iters := (dgnStates env XIn YIn ZIn opts opts.maxiter).it } := by
  have h := dgnStates_not_aborted env XIn YIn ZIn opts hv opts.maxiter
  unfold dGN
  rw [if_neg (by simp [h])]

/-! ### C7 — `maxiter = 1` -/

/-- C7: with `maxiter = 1` (and a valid inner-method name, so the run
completes), `dGN` executes exactly one iteration, no stop-condition check fires
(they are evaluated only when the iteration index exceeds 1), the returned stop
code is 5, and each diagnostic list has exactly one entry. -/
theorem dGN_maxiter_one (env : DGNEnv) (XIn YIn ZIn : FactorIn) (opts : Options)
    (hv : miValid (dgnCtx env XIn YIn ZIn opts).mi) (hm : opts.maxiter = 1) :
    ∃ r, dGN env XIn YIn ZIn opts = .ok r ∧ r.iters = 1 ∧ r.stop = 5 ∧
      r.errors.length = 1 ∧ r.step_sizes.length = 1 ∧ r.improv.length = 1 ∧
      r.gradients.length = 1 := by
  obtain ⟨yv, gv, rv, hb⟩ := dgnBody_eq_update (dgnCtx env XIn YIn ZIn opts)
    (dgnStates env XIn YIn ZIn opts 0) hv
  have h1 : dgnStates env XIn YIn ZIn opts opts.maxiter
      = dgnUpdate (dgnCtx env XIn YIn ZIn opts) (dgnStates env XIn YIn ZIn opts 0) yv gv rv := by
    rw [hm, show (1 : ℕ) = 0 + 1 from rfl, dgnStates_succ, dgnStep_active _ _ rfl rfl, hb]
  have hstop := dgnUpdate_stop_of_first (dgnCtx env XIn YIn ZIn opts)
    (dgnStates env XIn YIn ZIn opts 0) yv gv rv rfl
  have hlen := dgnUpdate_lengths (dgnCtx env XIn YIn ZIn opts)
    (dgnStates env XIn YIn ZIn opts 0) yv gv rv
  refine ⟨_, dGN_eq_ok env XIn YIn ZIn opts hv, ?_, ?_, ?_, ?_, ?_, ?_⟩
  · show (dgnStates env XIn YIn ZIn opts opts.maxiter).it = 1
    rw [h1, dgnUpdate_it]
    rfl
  · show (dgnStates env XIn YIn ZIn opts opts.maxiter).stop = 5
    rw [h1, hstop.1]
    rfl
  · show (dgnStates env XIn YIn ZIn opts opts.maxiter).errors.length = 1
    rw [h1, hlen.1]
    rfl
  · show (dgnStates env XIn YIn ZIn opts opts.maxiter).step_sizes.length = 1
    rw [h1, hlen.2.1]
    rfl
  · show (dgnStates env XIn YIn ZIn opts opts.maxiter).improv.length = 1
    rw [h1, hlen.2.2.1]
    rfl
  · show (dgnStates env XIn YIn ZIn opts opts.maxiter).gradients.length = 1
    rw [h1, hlen.2.2.2]
    rfl

/-- C7, witness: a concrete run (rank-1, `1×1×1`, static inner method,
`maxiter = 1`). -/
theorem dGN_maxiter_one_witness :
    ∃ r, dGN envW (.free onesM) (.free onesM) (.free onesM) optsW = .ok r ∧ r.iters = 1 ∧
      r.stop = 5 ∧ r.errors.length = 1 ∧ r.step_sizes.length = 1 ∧ r.improv.length = 1 ∧
      r.gradients.length = 1 :=
  dGN_maxiter_one envW (.free onesM) (.free onesM) (.free onesM) optsW (Or.inr rfl) rfl

/-! ### C9 — a fixed factor is returned unchanged -/

theorem dgnFactors_fix0 (ctx : DGNCtx) (s : DGNState) (yv : Vec) (h : ctx.fix_mode = 0) :
    (dgnFactors ctx s yv).1 = ctx.X_orig := by
  unfold dgnFactors
  dsimp only
  rw [if_pos h]

theorem dgnFactors_fix1 (ctx : DGNCtx) (s : DGNState) (yv : Vec) (h : ctx.fix_mode = 1) :
    (dgnFactors ctx s yv).2.1 = ctx.Y_orig := by
  have h0 : ¬ (ctx.fix_mode = 0) := by rw [h]; decide
  unfold dgnFactors
  dsimp only
  rw [if_neg h0, if_pos h]

theorem dgnFactors_fix2 (ctx : DGNCtx) (s : DGNState) (yv : Vec) (h : ctx.fix_mode = 2) :
    (dgnFactors ctx s yv).2.2 = ctx.Z_orig := by
  have h0 : ¬ (ctx.fix_mode = 0) := by rw [h]; decide
  have h1 : ¬ (ctx.fix_mode = 1) := by rw [h]; decide
  unfold dgnFactors
  dsimp only
  rw [if_neg h0, if_neg h1, if_pos h]

theorem dgnStates_best_isSome (env : DGNEnv) (XIn YIn ZIn : FactorIn) (opts : Options)
    (hv : miValid (dgnCtx env XIn YIn ZIn opts).mi) :
    ∀ k, ((dgnStates env XIn YIn ZIn opts (k + 1)).best).isSome = true := by
  intro k
  induction k with
  | zero =>
    rw [dgnStates_succ, dgnStep_active _ _ rfl rfl]
    obtain ⟨yv, gv, rv, hb⟩ := dgnBody_eq_update _ _ hv
    have hbe : (dgnStates env XIn YIn ZIn opts 0).best_error = ⊤ := rfl
    rw [hb, dgnUpdate_best, hbe, if_pos (WithTop.coe_lt_top _)]
    rfl
  | succ k ih =>
    rw [dgnStates_succ]
    by_cases hd : (dgnStates env XIn YIn ZIn opts (k + 1)).done = true
    · rw [dgnStep_skip _ _ (Or.inl hd)]
      exact ih
    · rw [dgnStep_active _ _ (by simpa using hd)
        (dgnStates_not_aborted env XIn YIn ZIn opts hv (k + 1))]
      obtain ⟨yv, gv, rv, hb⟩ := dgnBody_eq_update _ _ hv
      rw [hb, dgnUpdate_best]
      split
      · rfl
      · exact ih

theorem dgnStates_best_fix0 (env : DGNEnv) (XIn YIn ZIn : FactorIn) (opts : Options)
    (hv : miValid (dgnCtx env XIn YIn ZIn opts).mi)
    (hfix : (dgnCtx env XIn YIn ZIn opts).fix_mode = 0) :
    ∀ k, (dgnStates env XIn YIn ZIn opts k).best = none ∨
      ∃ bY bZ, (dgnStates env XIn YIn ZIn opts k).best
        = some ((dgnCtx env XIn YIn ZIn opts).X_orig, bY, bZ) := by
  intro k
  induction k with
  | zero => left; rfl
  | succ k ih =>
    rw [dgnStates_succ]
    by_cases hd : (dgnStates env XIn YIn ZIn opts k).done = true
    · rw [dgnStep_skip _ _ (Or.inl hd)]
      exact ih
    · rw [dgnStep_active _ _ (by simpa using hd)
        (dgnStates_not_aborted env XIn YIn ZIn opts hv k)]
      obtain ⟨yv, gv, rv, hb⟩ := dgnBody_eq_update _ _ hv
      rw [hb, dgnUpdate_best]
      split
      · right
        have hF := dgnFactors_fix0 (dgnCtx env XIn YIn ZIn opts)
          (dgnStates env XIn YIn ZIn opts k) yv hfix
        exact ⟨_, _, by rw [← hF]⟩
      · exact ih

theorem dgnStates_best_fix1 (env : DGNEnv) (XIn YIn ZIn : FactorIn) (opts : Options)
    (hv : miValid (dgnCtx env XIn YIn ZIn opts).mi)
    (hfix : (dgnCtx env XIn YIn ZIn opts).fix_mode = 1) :
    ∀ k, (dgnStates env XIn YIn ZIn opts k).best = none ∨
      ∃ bX bZ, (dgnStates env XIn YIn ZIn opts k).best
        = some (bX, (dgnCtx env XIn YIn ZIn opts).Y_orig, bZ) := by
  intro k
  induction k with
  | zero => left; rfl
  | succ k ih =>
    rw [dgnStates_succ]
    by_cases hd : (dgnStates env XIn YIn ZIn opts k).done = true
    · rw [dgnStep_skip _ _ (Or.inl hd)]
      exact ih
    · rw [dgnStep_active _ _ (by simpa using hd)
        (dgnStates_not_aborted env XIn YIn ZIn opts hv k)]
      obtain ⟨yv, gv, rv, hb⟩ := dgnBody_eq_update _ _ hv
      rw [hb, dgnUpdate_best]
      split
      · right
        have hF := dgnFactors_fix1 (dgnCtx env XIn YIn ZIn opts)
          (dgnStates env XIn YIn ZIn opts k) yv hfix
        exact ⟨_, _, by rw [← hF]⟩
      · exact ih

theorem dgnStates_best_fix2 (env : DGNEnv) (XIn YIn ZIn : FactorIn) (opts : Options)
    (hv : miValid (dgnCtx env XIn YIn ZIn opts).mi)
    (hfix : (dgnCtx env XIn YIn ZIn opts).fix_mode = 2) :
    ∀ k, (dgnStates env XIn YIn ZIn opts k).best = none ∨
      ∃ bX bY, (dgnStates env XIn YIn ZIn opts k).best
        = some (bX, bY, (dgnCtx env XIn YIn ZIn opts).Z_orig) := by
  intro k
  induction k with
  | zero => left; rfl
  | succ k ih =>
    rw [dgnStates_succ]
    by_cases hd : (dgnStates env XIn YIn ZIn opts k).done = true
    · rw [dgnStep_skip _ _ (Or.inl hd)]
      exact ih
    · rw [dgnStep_active _ _ (by simpa using hd)
        (dgnStates_not_aborted env XIn YIn ZIn opts hv k)]
      obtain ⟨yv, gv, rv, hb⟩ := dgnBody_eq_update _ _ hv
      rw [hb, dgnUpdate_best]
      split
      · right
        have hF := dgnFactors_fix2 (dgnCtx env XIn YIn ZIn opts)
          (dgnStates env XIn YIn ZIn opts k) yv hfix
        exact ⟨_, _, by rw [← hF]⟩
      · exact ih

/-- C9: when one of the initial factors is wrapped as fixed (the `elif` chain
checks `X`, then `Y`, then `Z`), the corresponding factor inside the returned
best snapshot equals the unchanged input matrix, for every run with at least one
iteration (with zero iterations the source crashes on the unassigned best
factors) and a valid inner-method name. -/
theorem dGN_fixed_factor_unchanged (env : DGNEnv) (opts : Options) (hm : 1 ≤ opts.maxiter) :
    (∀ (X0 : Mat) (YIn ZIn : FactorIn),
        miValid (dgnCtx env (.fixed X0) YIn ZIn opts).mi →
        ∃ r bY bZ, dGN env (.fixed X0) YIn ZIn opts = .ok r ∧ r.best = some (X0, bY, bZ)) ∧
    (∀ (X0 Y0 : Mat) (ZIn : FactorIn),
        miValid (dgnCtx env (.free X0) (.fixed Y0) ZIn opts).mi →
        ∃ r bX bZ, dGN env (.free X0) (.fixed Y0) ZIn opts = .ok r ∧ r.best = some (bX, Y0, bZ)) ∧
    (∀ (X0 Y0 Z0 : Mat),
        miValid (dgnCtx env (.free X0) (.free Y0) (.fixed Z0) opts).mi →
        ∃ r bX bY, dGN env (.free X0) (.free Y0) (.fixed Z0) opts = .ok r ∧
          r.best = some (bX, bY, Z0)) := by
  refine ⟨fun X0 YIn ZIn hv => ?_, fun X0 Y0 ZIn hv => ?_, fun X0 Y0 Z0 hv => ?_⟩
  · obtain ⟨mx, hmx⟩ : ∃ mx, opts.maxiter = mx + 1 := ⟨opts.maxiter - 1, by omega⟩
    have hsome := dgnStates_best_isSome env (.fixed X0) YIn ZIn opts hv mx
    rw [← hmx] at hsome
    rcases dgnStates_best_fix0 env (.fixed X0) YIn ZIn opts hv rfl opts.maxiter with h | ⟨bY, bZ, h⟩
    · rw [h] at hsome
      exact absurd hsome (by simp)
    · exact ⟨_, bY, bZ, dGN_eq_ok env (.fixed X0) YIn ZIn opts hv, h⟩
  · obtain ⟨mx, hmx⟩ : ∃ mx, opts.maxiter = mx + 1 := ⟨opts.maxiter - 1, by omega⟩
    have hsome := dgnStates_best_isSome env (.free X0) (.fixed Y0) ZIn opts hv mx
    rw [← hmx] at hsome
    rcases dgnStates_best_fix1 env (.free X0) (.fixed Y0) ZIn opts hv rfl opts.maxiter with
      h | ⟨bX, bZ, h⟩
    · rw [h] at hsome
      exact absurd hsome (by simp)
    · exact ⟨_, bX, bZ, dGN_eq_ok env (.free X0) (.fixed Y0) ZIn opts hv, h⟩
  · obtain ⟨mx, hmx⟩ : ∃ mx, opts.maxiter = mx + 1 := ⟨opts.maxiter - 1, by omega⟩
    have hsome := dgnStates_best_isSome env (.free X0) (.free Y0) (.fixed Z0) opts hv mx
    rw [← hmx] at hsome
    rcases dgnStates_best_fix2 env (.free X0) (.free Y0) (.fixed Z0) opts hv rfl opts.maxiter with
      h | ⟨bX, bY, h⟩
    · rw [h] at hsome
      exact absurd hsome (by simp)
    · exact ⟨_, bX, bY, dGN_eq_ok env (.free X0) (.free Y0) (.fixed Z0) opts hv, h⟩

/-- C9, witness: a concrete bi-factor run holding `X` fixed; the returned best
`X` factor is the input matrix. -/
theorem dGN_fixed_factor_witness :
    ∃ r bY bZ, dGN envW (.fixed onesM) (.free onesM) (.free onesM) optsW = .ok r ∧
      r.best = some (onesM, bY, bZ) :=
  (dGN_fixed_factor_unchanged envW optsW (Nat.le_refl 1)).1 onesM (.free onesM) (.free onesM)
    (Or.inr rfl)

/-! ### C1 — best-solution tracking -/

theorem dgnStates_best_error_mono (env : DGNEnv) (XIn YIn ZIn : FactorIn) (opts : Options)
    (hv : miValid (dgnCtx env XIn YIn ZIn opts).mi) :
    ∀ k, (dgnStates env XIn YIn ZIn opts (k + 1)).best_error
      ≤ (dgnStates env XIn YIn ZIn opts k).best_error := by
  intro k
  rw [dgnStates_succ]
  by_cases hd : (dgnStates env XIn YIn ZIn opts k).done = true
  · rw [dgnStep_skip _ _ (Or.inl hd)]
  · rw [dgnStep_active _ _ (by simpa using hd)
      (dgnStates_not_aborted env XIn YIn ZIn opts hv k)]
    obtain ⟨yv, gv, rv, hb⟩ := dgnBody_eq_update _ _ hv
    rw [hb, dgnUpdate_best_error]
    split
    · rename_i hlt
      exact le_of_lt hlt
    · exact le_refl _

theorem dgnStates_best_replace_strict (env : DGNEnv) (XIn YIn ZIn : FactorIn) (opts : Options)
    (hv : miValid (dgnCtx env XIn YIn ZIn opts).mi) :
    ∀ k, (dgnStates env XIn YIn ZIn opts (k + 1)).best ≠ (dgnStates env XIn YIn ZIn opts k).best →
      (dgnStates env XIn YIn ZIn opts (k + 1)).best_error
        < (dgnStates env XIn YIn ZIn opts k).best_error := by
  intro k hne
  rw [dgnStates_succ] at hne ⊢
  by_cases hd : (dgnStates env XIn YIn ZIn opts k).done = true
  · rw [dgnStep_skip _ _ (Or.inl hd)] at hne
    exact absurd rfl hne
  · rw [dgnStep_active _ _ (by simpa using hd)
      (dgnStates_not_aborted env XIn YIn ZIn opts hv k)] at hne ⊢
    obtain ⟨yv, gv, rv, hb⟩ := dgnBody_eq_update _ _ hv
    rw [hb, dgnUpdate_best] at hne
    rw [hb, dgnUpdate_best_error]
    by_cases hc : ((dgnError (dgnCtx env XIn YIn ZIn opts) (dgnStates env XIn YIn ZIn opts k) yv
        : ℚ) : WithTop ℚ) < (dgnStates env XIn YIn ZIn opts k).best_error
    · rw [if_pos hc]
      exact hc
    · rw [if_neg hc] at hne
      exact absurd rfl hne

theorem dgnStates_best_argmin (env : DGNEnv) (XIn YIn ZIn : FactorIn) (opts : Options)
    (hv : miValid (dgnCtx env XIn YIn ZIn opts).mi) :
    ∀ n, ((dgnStates env XIn YIn ZIn opts n).best = none ∧
          (dgnStates env XIn YIn ZIn opts n).best_error = ⊤ ∧
          ∀ j, j < n → (dgnStates env XIn YIn ZIn opts j).done = true)
       ∨ (∃ k, k < n ∧ (dgnStates env XIn YIn ZIn opts k).done = false ∧
          (dgnStates env XIn YIn ZIn opts n).best
            = some ((dgnStates env XIn YIn ZIn opts (k + 1)).X,
                    (dgnStates env XIn YIn ZIn opts (k + 1)).Y,
                    (dgnStates env XIn YIn ZIn opts (k + 1)).Z) ∧
          (dgnStates env XIn YIn ZIn opts n).best_error
            = ((dgnStates env XIn YIn ZIn opts (k + 1)).error : WithTop ℚ) ∧
          ∀ j, j < n → (dgnStates env XIn YIn ZIn opts j).done = false →
            (dgnStates env XIn YIn ZIn opts n).best_error
              ≤ ((dgnStates env XIn YIn ZIn opts (j + 1)).error : WithTop ℚ)) := by
  intro n
  induction n with
  | zero =>
    left
    exact ⟨rfl, rfl, fun j hj => absurd hj (Nat.not_lt_zero j)⟩
  | succ n ih =>
    by_cases hd : (dgnStates env XIn YIn ZIn opts n).done = true
    · have heq : dgnStates env XIn YIn ZIn opts (n + 1) = dgnStates env XIn YIn ZIn opts n := by
        rw [dgnStates_succ, dgnStep_skip _ _ (Or.inl hd)]
      rcases ih with ⟨h1, h2, h3⟩ | ⟨k, hk, hdk, hbst, herr, hall⟩
      · left
        refine ⟨by rw [heq]; exact h1, by rw [heq]; exact h2, ?_⟩
        intro j hj
        rcases Nat.lt_succ_iff_lt_or_eq.mp hj with hj1 | hj1
        · exact h3 j hj1
        · rw [hj1]
          exact hd
      · right
        refine ⟨k, Nat.lt_succ_of_lt hk, hdk, by rw [heq]; exact hbst, by rw [heq]; exact herr, ?_⟩
        intro j hj hdj
        rcases Nat.lt_succ_iff_lt_or_eq.mp hj with hj1 | hj1
        · rw [heq]
          exact hall j hj1 hdj
        · rw [hj1] at hdj
          exact absurd hd (by simp [hdj])
    · have hdf : (dgnStates env XIn YIn ZIn opts n).done = false := by simpa using hd
      obtain ⟨yv, gv, rv, hbody⟩ := dgnBody_eq_update (dgnCtx env XIn YIn ZIn opts)
        (dgnStates env XIn YIn ZIn opts n) hv
      have heq : dgnStates env XIn YIn ZIn opts (n + 1)
          = dgnUpdate (dgnCtx env XIn YIn ZIn opts) (dgnStates env XIn YIn ZIn opts n) yv gv rv := by
        rw [dgnStates_succ,
          dgnStep_active _ _ hdf (dgnStates_not_aborted env XIn YIn ZIn opts hv n), hbody]
      by_cases hc : ((dgnError (dgnCtx env XIn YIn ZIn opts) (dgnStates env XIn YIn ZIn opts n) yv
          : ℚ) : WithTop ℚ) < (dgnStates env XIn YIn ZIn opts n).best_error
      · right
        refine ⟨n, Nat.lt_succ_self n, hdf, ?_, ?_, ?_⟩
        · rw [heq, dgnUpdate_best, if_pos hc]
          rfl
        · rw [heq, dgnUpdate_best_error, if_pos hc]
          rfl
        · intro j hj hdj
          have hle : (dgnStates env XIn YIn ZIn opts (n + 1)).best_error
              ≤ (dgnStates env XIn YIn ZIn opts n).best_error := by
            rw [heq, dgnUpdate_best_error, if_pos hc]
            exact le_of_lt hc
          rcases Nat.lt_succ_iff_lt_or_eq.mp hj with hj1 | hj1
          · rcases ih with ⟨h1, h2, h3⟩ | ⟨k, hk, hdk, hbst, herr, hall⟩
            · exact absurd (h3 j hj1) (by simp [hdj])
            · exact le_trans hle (hall j hj1 hdj)
          · rw [hj1, heq, dgnUpdate_best_error, if_pos hc]
            exact le_refl _
      · rcases ih with ⟨h1, h2, h3⟩ | ⟨k, hk, hdk, hbst, herr, hall⟩
        · rw [h2] at hc
          exact absurd (WithTop.coe_lt_top _) hc
        · right
          have hbeq : (dgnStates env XIn YIn ZIn opts (n + 1)).best_error
              = (dgnStates env XIn YIn ZIn opts n).best_error := by
            rw [heq, dgnUpdate_best_error, if_neg hc]
          have hbsteq : (dgnStates env XIn YIn ZIn opts (n + 1)).best
              = (dgnStates env XIn YIn ZIn opts n).best := by
            rw [heq, dgnUpdate_best, if_neg hc]
          refine ⟨k, Nat.lt_succ_of_lt hk, hdk, by rw [hbsteq]; exact hbst,
            by rw [hbeq]; exact herr, ?_⟩
          intro j hj hdj
          rcases Nat.lt_succ_iff_lt_or_eq.mp hj with hj1 | hj1
          · rw [hbeq]
            exact hall j hj1 hdj
          · rw [hj1, heq, dgnUpdate_best_error, if_neg hc]
            exact not_lt.mp hc

/-- C1: (monotonicity) the best-seen error never increases from one `dGN`
iteration to the next; (strict replacement) whenever the best snapshot changes,
the new best error is strictly smaller than the previous one; and (best
returned) `dGN` returns the factor snapshot taken at an iteration whose
relative error equals the final best error, which is a lower bound on the
errors of all executed iterations — not necessarily the last iterate. -/
theorem dGN_best_tracking (env : DGNEnv) (XIn YIn ZIn : FactorIn) (opts : Options)
    (hv : miValid (dgnCtx env XIn YIn ZIn opts).mi) (hm : 1 ≤ opts.maxiter) :
    (∀ k, (dgnStates env XIn YIn ZIn opts (k + 1)).best_error
        ≤ (dgnStates env XIn YIn ZIn opts k).best_error) ∧
    (∀ k, (dgnStates env XIn YIn ZIn opts (k + 1)).best
          ≠ (dgnStates env XIn YIn ZIn opts k).best →
        (dgnStates env XIn YIn ZIn opts (k + 1)).best_error
          < (dgnStates env XIn YIn ZIn opts k).best_error) ∧
    ∃ r k, dGN env XIn YIn ZIn opts = .ok r ∧ k < opts.maxiter ∧
      (dgnStates env XIn YIn ZIn opts k).done = false ∧
      r.best = some ((dgnStates env XIn YIn ZIn opts (k + 1)).X,
                     (dgnStates env XIn YIn ZIn opts (k + 1)).Y,
                     (dgnStates env XIn YIn ZIn opts (k + 1)).Z) ∧
      r.best_error = ((dgnStates env XIn YIn ZIn opts (k + 1)).error : WithTop ℚ) ∧
      ∀ j, j < opts.maxiter → (dgnStates env XIn YIn ZIn opts j).done = false →
        r.best_error ≤ ((dgnStates env XIn YIn ZIn opts (j + 1)).error : WithTop ℚ) := by
  refine ⟨dgnStates_best_error_mono env XIn YIn ZIn opts hv,
    dgnStates_best_replace_strict env XIn YIn ZIn opts hv, ?_⟩
  rcases dgnStates_best_argmin env XIn YIn ZIn opts hv opts.maxiter with
    ⟨h1, h2, h3⟩ | ⟨k, hk, hdk, hbst, herr, hall⟩
  · have h0 : (dgnStates env XIn YIn ZIn opts 0).done = false := rfl
    exact absurd (h3 0 hm) (by simp [h0])
  · exact ⟨_, k, dGN_eq_ok env XIn YIn ZIn opts hv, hk, hdk, hbst, herr, hall⟩

/-- C1, witness: the concrete run of `envW`/`optsW` satisfies all three parts of
the best-tracking theorem. -/
theorem dGN_best_tracking_witness :
    (∀ k, (dgnStates envW (.free onesM) (.free onesM) (.free onesM) optsW (k + 1)).best_error
        ≤ (dgnStates envW (.free onesM) (.free onesM) (.free onesM) optsW k).best_error) ∧
    (∀ k, (dgnStates envW (.free onesM) (.free onesM) (.free onesM) optsW (k + 1)).best
          ≠ (dgnStates envW (.free onesM) (.free onesM) (.free onesM) optsW k).best →
        (dgnStates envW (.free onesM) (.free onesM) (.free onesM) optsW (k + 1)).best_error
          < (dgnStates envW (.free onesM) (.free onesM) (.free onesM) optsW k).best_error) ∧
    ∃ r k, dGN envW (.free onesM) (.free onesM) (.free onesM) optsW = .ok r ∧ k < optsW.maxiter ∧
      (dgnStates envW (.free onesM) (.free onesM) (.free onesM) optsW k).done = false ∧
      r.best = some ((dgnStates envW (.free onesM) (.free onesM) (.free onesM) optsW (k + 1)).X,
                     (dgnStates envW (.free onesM) (.free onesM) (.free onesM) optsW (k + 1)).Y,
                     (dgnStates envW (.free onesM) (.free onesM) (.free onesM) optsW (k + 1)).Z) ∧
      r.best_error
        = ((dgnStates envW (.free onesM) (.free onesM) (.free onesM) optsW (k + 1)).error
            : WithTop ℚ) ∧
      ∀ j, j < optsW.maxiter →
        (dgnStates envW (.free onesM) (.free onesM) (.free onesM) optsW j).done = false →
        r.best_error
          ≤ ((dgnStates envW (.free onesM) (.free onesM) (.free onesM) optsW (j + 1)).error
              : WithTop ℚ) :=
  dGN_best_tracking envW (.free onesM) (.free onesM) (.free onesM) optsW (Or.inr rfl)
    (Nat.le_refl 1)

end TensorCodes
